import Mathlib

/-!
Shallow embedding of the pongo repository (a minimal Pong clone).
Source files: main.go and controller.go.

Modelling choices:
* Go `float64` positions, velocities and sizes are modelled as `ℚ`
  (all the arithmetic in the program is addition, subtraction,
  multiplication by -1 and comparison, which the rationals model
  exactly at the magnitudes the program uses; in particular the
  float64 product `0.6*screenWidth` = `0.6*320` rounds to exactly
  `192`, which is the value `(6/10 : ℚ) * 320` as well).
* `panic` is modelled by `Option`: `none` is the panicking run.
* The ebiten `Collider` interface (`Width`, `Height`, `Location`)
  is modelled by a record of the collider's box, together with a
  Boolean `isSelf` that is true exactly when this list entry is the
  very ball whose `Update` is running (Go compares the interface
  value against the receiver pointer `b`; a self entry necessarily
  carries the ball's own box).
* A `Player`'s sprite only contributes its width and height, which
  are stored as fields; a Player's `Controller` is modelled as an
  `Option Direction`: `none` for a nil controller, `some dir` for a
  controller whose `Input()` returns `dir` this tick.
-/

/-- Logical screen width, `screenWidth = 320` in main.go. -/
def screenWidth : ℚ := 320

/-- Logical screen height, `screenHeight = 240` in main.go. -/
def screenHeight : ℚ := 240

/-- `type Direction int` with constants `Up`, `Down`, `Nothing`
(`Up` is the zero value). -/
inductive Direction where
  | Up
  | Down
  | Nothing
deriving DecidableEq, Repr

open Direction

/-- `type Ball struct { Sprite *ebiten.Image; Point; XSpeed, YSpeed float64 }`.
`w` and `h` are the sprite's width and height (`Ball.Width`, `Ball.Height`). -/
structure Ball where
  x : ℚ
  y : ℚ
  xspeed : ℚ
  yspeed : ℚ
  w : ℚ
  h : ℚ
deriving DecidableEq, Repr

/-- One entry of the `colliders ...Collider` argument of `Ball.Update`:
the collider's box (top-left corner, width, height) plus whether this
entry is the updating ball itself (Go: `ptr == b` after a `*Ball`
type assertion). -/
structure Coll where
  x : ℚ
  y : ℚ
  w : ℚ
  h : ℚ
  isSelf : Bool
deriving DecidableEq, Repr

/-- `inXArea := b.X+b.Width() >= cX && b.X <= cX+c.Width()` for the
ball's current position. -/
def inXArea (b : Ball) (c : Coll) : Bool :=
  decide (b.x + b.w ≥ c.x) && decide (b.x ≤ c.x + c.w)

/-- `inYArea := b.Y >= cY && b.Y+b.Height() <= cY+c.Height()` for the
ball's current position. -/
def inYArea (b : Ball) (c : Coll) : Bool :=
  decide (b.y ≥ c.y) && decide (b.y + b.h ≤ c.y + c.h)

/-- `inPaddle := inXArea && inYArea` (main.go line 154). -/
def inPaddle (b : Ball) (c : Coll) : Bool :=
  inXArea b c && inYArea b c

/-- The ball translated by its current velocity: `nextX := b.X + b.XSpeed`,
`nextY := b.Y + b.YSpeed`. -/
def nextTick (b : Ball) : Ball :=
  { b with x := b.x + b.xspeed, y := b.y + b.yspeed }

/-- `inPaddleNextTick := inNextX && inNextY` (main.go lines 157-159):
the same test as `inPaddle` applied at the next-tick position. -/
def inPaddleNextTick (b : Ball) (c : Coll) : Bool :=
  inPaddle (nextTick b) c

/-- The bounce condition of the loop body: `!inPaddle && inPaddleNextTick`
(main.go line 160). -/
def bounceTrigger (b : Ball) (c : Coll) : Bool :=
  !inPaddle b c && inPaddleNextTick b c

/-- `b.XSpeed *= -1` (main.go line 161). -/
def flipX (b : Ball) : Ball :=
  { b with xspeed := b.xspeed * (-1) }

/-- The collider loop of `Ball.Update` (main.go lines 144-165): for each
collider in order, panic (`none`) if it is the ball itself, otherwise
flip `XSpeed` and stop (`break`) at the first collider for which the
boxes do not satisfy `inPaddle` now but satisfy it next tick. -/
def scanColliders (b : Ball) : List Coll → Option Ball
  | [] => some b
  | c :: rest =>
    if c.isSelf then none
    else if bounceTrigger b c then some (flipX b)
    else scanColliders b rest

/-- The screen-edge handling of `Ball.Update` (main.go lines 167-174):
reverse `XSpeed` when the ball's box touches or crosses the left or
right screen edge, then reverse `YSpeed` when it touches or crosses
the top or bottom edge. -/
def edgeBounce (b : Ball) : Ball :=
  let b1 := if b.x ≤ 0 ∨ b.x + b.w ≥ screenWidth
    then { b with xspeed := -b.xspeed } else b
  if b1.y ≤ 0 ∨ b1.y + b1.h ≥ screenHeight
    then { b1 with yspeed := -b1.yspeed } else b1

/-- `func (b *Ball) Update(colliders ...Collider)` (main.go lines 143-177):
the collider scan, then edge handling, then position integration
`b.X += b.XSpeed; b.Y += b.YSpeed`. `none` models the panic
`"ball.Update: ball cannot collide with itself"`. -/
def Ball.Update (b : Ball) (colliders : List Coll) : Option Ball :=
  (scanColliders b colliders).map (fun b1 => nextTick (edgeBounce b1))

/-- `type Player struct { Sprite *ebiten.Image; Point; Controller; Speed float64 }`.
`w`/`h` are the sprite's width and height; `ctrl` is the `Controller`
field, `none` when nil, `some dir` when its `Input()` returns `dir`. -/
structure Player where
  x : ℚ
  y : ℚ
  speed : ℚ
  w : ℚ
  h : ℚ
  ctrl : Option Direction
deriving DecidableEq, Repr

/-- `func (p *Player) Update()` (main.go lines 108-118): with a nil
controller do nothing; otherwise read the decision once and move by
`±Speed` along Y under the two guard conditions. The `Down` guard
reads `p.Y` after the `Up` branch, exactly as the Go code does. -/
def Player.Update (p : Player) : Player :=
  match p.ctrl with
  | none => p
  | some dir =>
    let p1 := if dir = Up ∧ p.y - p.speed * 2 ≥ 0
      then { p with y := p.y - p.speed } else p
    if dir = Down ∧ p1.y + p1.h + p1.speed * 2 ≤ screenHeight
      then { p1 with y := p1.y + p1.speed } else p1

/-- The mutable state of `type FollowBall struct` (controller.go):
`lastDecision Direction` and `count int`. -/
structure FollowBall where
  lastDecision : Direction
  count : ℤ
deriving DecidableEq, Repr

/-- The per-call observations that `FollowBall.Input` reads through its
`Ball` and `Player` pointers: `fb.Ball.Location()`, `fb.Player.Location()`
and `fb.Player.Speed`. -/
structure Obs where
  ballX : ℚ
  ballY : ℚ
  px : ℚ
  py : ℚ
  speed : ℚ
deriving DecidableEq, Repr

/-- `func (fb *FollowBall) Input() Direction` (controller.go lines 43-67),
with `decisionBuffer = 15`. Returns the decision together with the
updated controller state. -/
def FollowBall.Input (fb : FollowBall) (o : Obs) : Direction × FollowBall :=
  if fb.count > 0 then
    (fb.lastDecision, { fb with count := fb.count - 1 })
  else if |o.ballX - o.px| < (6/10 : ℚ) * screenWidth then
    if o.ballY < o.py - o.speed then
      (Up, ⟨Up, fb.count + 15⟩)
    else if o.ballY > o.py + o.speed then
      (Down, ⟨Down, fb.count + 15⟩)
    else
      (Nothing, fb)
  else
    (Nothing, fb)

/-- Iterate `FollowBall.Input` over a sequence of per-call observations,
collecting the returned decisions and the final state. -/
def FollowBall.run (fb : FollowBall) : List Obs → List Direction × FollowBall
  | [] => ([], fb)
  | o :: rest =>
    let (d, fb1) := fb.Input o
    let (ds, fb2) := FollowBall.run fb1 rest
    (d :: ds, fb2)

/-- The state invariant of a `FollowBall` controller started from the
zero value of `count`: the commit counter stays in `[0, 15]` and a
positive counter always goes with a stored `Up`/`Down` decision. -/
def fbInv (s : FollowBall) : Prop :=
  0 ≤ s.count ∧ s.count ≤ 15 ∧ (0 < s.count → s.lastDecision ≠ Nothing)

/-- Axis-aligned bounding-box overlap as the spec's words describe the
`inPaddle` test: the X extents of the two boxes intersect and their Y
extents intersect.  This is the spec-side definition, to be compared
with the code-side `inPaddle`. -/
def specAabbOverlap (b : Ball) (c : Coll) : Prop :=
  (Set.Icc b.x (b.x + b.w) ∩ Set.Icc c.x (c.x + c.w)).Nonempty ∧
    (Set.Icc b.y (b.y + b.h) ∩ Set.Icc c.y (c.y + c.h)).Nonempty

/-- C3: a player with nonnegative speed whose paddle starts inside the
vertical screen bounds stays inside them after `Player.Update`, and its
horizontal position is unchanged, whatever the controller decides
(including a nil controller). -/
theorem player_update_stays_in_bounds (p : Player) (hs : 0 ≤ p.speed)
    (h0 : 0 ≤ p.y) (h1 : p.y + p.h ≤ screenHeight) :
    0 ≤ (Player.Update p).y ∧
      (Player.Update p).y + (Player.Update p).h ≤ screenHeight ∧
      (Player.Update p).x = p.x := by
  unfold Player.Update
  match hc : p.ctrl with
  | none => exact ⟨h0, h1, rfl⟩
  | some dir =>
    simp only
    split_ifs with hup hdn hdn
    · exact absurd hdn.1 (by simp [hup.1])
    · have := hup.2
      refine ⟨by dsimp only; linarith, by dsimp only; linarith, rfl⟩
    · have := hdn.2
      dsimp only at this ⊢
      refine ⟨by linarith, by linarith, rfl⟩
    · exact ⟨h0, h1, rfl⟩

/-- Witness for C3 at a concrete player. -/
theorem player_update_stays_in_bounds_witness :
    0 ≤ (Player.Update ⟨0, 100, 2, 10, 50, some Up⟩).y ∧
      (Player.Update ⟨0, 100, 2, 10, 50, some Up⟩).y +
        (Player.Update ⟨0, 100, 2, 10, 50, some Up⟩).h ≤ screenHeight ∧
      (Player.Update ⟨0, 100, 2, 10, 50, some Up⟩).x = 0 :=
  player_update_stays_in_bounds ⟨0, 100, 2, 10, 50, some Up⟩
    (by norm_num) (by norm_num) (by norm_num [screenHeight])

/-- C9: a player whose `Controller` field is nil is left completely
unchanged by `Player.Update`. -/
theorem player_update_nil_controller (p : Player) (h : p.ctrl = none) :
    Player.Update p = p := by
  unfold Player.Update
  rw [h]

/-- Witness for C9 at a concrete player. -/
theorem player_update_nil_controller_witness :
    Player.Update ⟨7, 100, 2, 10, 50, none⟩ = ⟨7, 100, 2, 10, 50, none⟩ :=
  player_update_nil_controller ⟨7, 100, 2, 10, 50, none⟩ rfl

/-- C6: with no active commit window (`count = 0`), a ball at horizontal
distance at least `0.6 * screenWidth` from the paddle makes
`FollowBall.Input` return `Nothing` and leave the state (so in
particular the counter) unchanged. -/
theorem followball_far_ball_nothing (fb : FollowBall) (o : Obs)
    (h0 : fb.count = 0)
    (hfar : |o.ballX - o.px| ≥ (6/10 : ℚ) * screenWidth) :
    fb.Input o = (Nothing, fb) := by
  unfold FollowBall.Input
  rw [if_neg (by omega), if_neg (not_lt.mpr hfar)]

/-- Witness for C6 at a concrete state and observation. -/
theorem followball_far_ball_nothing_witness :
    FollowBall.Input ⟨Up, 0⟩ ⟨0, 0, 200, 0, 2⟩ = (Nothing, ⟨Up, 0⟩) :=
  followball_far_ball_nothing ⟨Up, 0⟩ ⟨0, 0, 200, 0, 2⟩ rfl
    (by norm_num [screenWidth])

/-- While the commit counter holds `n > 0` ticks, the next `n` calls all
return the stored decision and drain the counter to `0`, whatever the
observations are. -/
theorem followball_run_drains (d : Direction) :
    ∀ (obs : List Obs) (fb : FollowBall) (n : ℕ),
      fb.lastDecision = d → fb.count = (n : ℤ) → obs.length = n →
      (FollowBall.run fb obs).1 = List.replicate n d ∧
        (FollowBall.run fb obs).2 = ⟨d, 0⟩ := by
  intro obs
  induction obs with
  | nil =>
    intro fb n hd hc hl
    simp only [List.length_nil] at hl
    subst hl
    refine ⟨rfl, ?_⟩
    cases fb
    simp_all [FollowBall.run]
  | cons o rest ih =>
    intro fb n hd hc hl
    simp only [List.length_cons] at hl
    obtain ⟨m, rfl⟩ : ∃ m, n = m + 1 := ⟨rest.length, hl.symm⟩
    have hpos : fb.count > 0 := by omega
    have hcount : fb.count - 1 = (m : ℤ) := by omega
    have hstep : fb.Input o = (d, ⟨d, (m : ℤ)⟩) := by
      unfold FollowBall.Input
      rw [if_pos hpos]
      cases fb
      simp_all
    have hih := ih ⟨d, (m : ℤ)⟩ m rfl rfl (by omega)
    simp only [FollowBall.run, hstep]
    exact ⟨by simp [hih.1, List.replicate], hih.2⟩

/-- C4: when `FollowBall.Input` makes a fresh `Up`/`Down` decision (the
counter was `0`), the next 15 calls all return that same decision no
matter how the observed ball and paddle positions change, and after
those 15 calls the counter is back at `0`, so the 16th call re-runs the
heuristic. -/
theorem followball_commit_window (fb : FollowBall) (o : Obs)
    (d : Direction) (fb1 : FollowBall)
    (h0 : fb.count = 0) (hI : fb.Input o = (d, fb1)) (hd : d ≠ Nothing) :
    ∀ obs : List Obs, obs.length = 15 →
      (FollowBall.run fb1 obs).1 = List.replicate 15 d ∧
        (FollowBall.run fb1 obs).2.count = 0 := by
  intro obs hlen
  have hfb1 : fb1.lastDecision = d ∧ fb1.count = 15 := by
    unfold FollowBall.Input at hI
    rw [if_neg (by omega)] at hI
    split_ifs at hI with h1 h2 h3
    · obtain ⟨rfl, rfl⟩ := Prod.mk.injEq .. ▸ hI
      simp_all
    · obtain ⟨rfl, rfl⟩ := Prod.mk.injEq .. ▸ hI
      simp_all
    · exact absurd (Prod.mk.injEq .. ▸ hI).1.symm hd
    · exact absurd (Prod.mk.injEq .. ▸ hI).1.symm hd
  have h := followball_run_drains d obs fb1 15 hfb1.1 (by rw [hfb1.2]; rfl) hlen
  exact ⟨h.1, by rw [h.2]⟩

/-- Witness for C4: a fresh `Up` decision at a concrete observation,
then 15 arbitrary observations. -/
theorem followball_commit_window_witness :
    (FollowBall.run ⟨Up, 15⟩ (List.replicate 15 ⟨0, 0, 300, 0, 2⟩)).1 =
        List.replicate 15 Up ∧
      (FollowBall.run ⟨Up, 15⟩ (List.replicate 15 ⟨0, 0, 300, 0, 2⟩)).2.count = 0 :=
  followball_commit_window ⟨Nothing, 0⟩ ⟨100, 10, 100, 100, 2⟩ Up ⟨Up, 15⟩
    rfl (by norm_num [FollowBall.Input, screenWidth]) (by simp)
    (List.replicate 15 ⟨0, 0, 300, 0, 2⟩) (by simp)

/-- One call to `FollowBall.Input` preserves the controller invariant. -/
theorem fbInv_step (s : FollowBall) (o : Obs) (h : fbInv s) :
    fbInv (s.Input o).2 := by
  obtain ⟨h0, h15, hlast⟩ := h
  unfold FollowBall.Input fbInv
  split_ifs with hc hnear hup hdn
  all_goals dsimp only
  · exact ⟨by omega, by omega, fun hpos => hlast (by omega)⟩
  · exact ⟨by omega, by omega, fun _ => by simp⟩
  · exact ⟨by omega, by omega, fun _ => by simp⟩
  · exact ⟨h0, h15, hlast⟩
  · exact ⟨h0, h15, hlast⟩

/-- Running any observation sequence preserves the controller invariant. -/
theorem fbInv_run (obs : List Obs) : ∀ s : FollowBall, fbInv s →
    fbInv (FollowBall.run s obs).2 := by
  induction obs with
  | nil => exact fun s h => h
  | cons o rest ih =>
    intro s h
    simp only [FollowBall.run]
    exact ih _ (fbInv_step s o h)

/-- With a positive counter, `FollowBall.Input` serves the stored
decision. -/
theorem fb_input_pos_count (s : FollowBall) (o : Obs) (h : 0 < s.count) :
    (s.Input o).1 = s.lastDecision := by
  unfold FollowBall.Input
  rw [if_pos h]

/-- C10: starting from a `FollowBall` state with `count = 0` (any stored
decision, e.g. the zero value), after any sequence of `Input` calls the
counter is in `[0, 15]`, a positive counter goes with a stored `Up` or
`Down` decision, and a call served from a commit window (positive
counter) never returns `Nothing`. -/
theorem followball_invariant (d0 : Direction) (obs : List Obs) :
    fbInv (FollowBall.run ⟨d0, 0⟩ obs).2 ∧
      ∀ o : Obs, 0 < (FollowBall.run ⟨d0, 0⟩ obs).2.count →
        ((FollowBall.run ⟨d0, 0⟩ obs).2.Input o).1 ≠ Nothing := by
  have hinv : fbInv (FollowBall.run ⟨d0, 0⟩ obs).2 :=
    fbInv_run obs ⟨d0, 0⟩ (by simp [fbInv])
  refine ⟨hinv, fun o hpos => ?_⟩
  rw [fb_input_pos_count _ o hpos]
  exact hinv.2.2 hpos

/-- Witness for C10: one observation that creates a commit window, then
a served call that indeed returns a non-`Nothing` decision. -/
theorem followball_invariant_witness :
    ((FollowBall.run ⟨Nothing, 0⟩ [⟨100, 10, 100, 100, 2⟩]).2.Input
        ⟨0, 0, 300, 0, 2⟩).1 ≠ Nothing :=
  (followball_invariant Nothing [⟨100, 10, 100, 100, 2⟩]).2
    ⟨0, 0, 300, 0, 2⟩
    (by norm_num [FollowBall.run, FollowBall.Input, screenWidth])

/-- On a list without the ball itself, the collider scan is the
first-match search for the edge-trigger condition: it returns the ball
with `XSpeed` multiplied by `-1` when some collider triggers, the
unchanged ball otherwise. -/
theorem scan_eq_first_match (b : Ball) (cs : List Coll)
    (h : ∀ c ∈ cs, c.isSelf = false) :
    scanColliders b cs =
      some (if (cs.find? (bounceTrigger b)).isSome then flipX b else b) := by
  induction cs with
  | nil => simp [scanColliders]
  | cons c rest ih =>
    have hc : c.isSelf = false := h c (List.mem_cons_self c rest)
    have ih' := ih fun c' hc' => h c' (List.mem_cons_of_mem c hc')
    by_cases ht : bounceTrigger b c = true
    · rw [List.find?_cons_of_pos _ ht]
      simp [scanColliders, hc, ht]
    · have ht' : bounceTrigger b c = false := by simpa using ht
      rw [List.find?_cons_of_neg _ (by simp [ht'])]
      simp [scanColliders, hc, ht', ih']

/-- C1: on any call whose collider list does not contain the ball
itself (so the scan completes), the collider scan of `Ball.Update`
flips `XSpeed` (multiplies it by `-1`) exactly when the list has a
collider satisfying the edge trigger `!inPaddle && inPaddleNextTick`
(no overlap now, overlap at the position offset by the velocity), it
takes the first such collider in list order (`List.find?`) and flips at
most once, and a collider that already satisfies `inPaddle` never
triggers a bounce. -/
theorem ball_update_first_match_bounce (b : Ball) (cs : List Coll)
    (h : ∀ c ∈ cs, c.isSelf = false) :
    scanColliders b cs =
      some (if (cs.find? (bounceTrigger b)).isSome then flipX b else b) ∧
    (∀ c : Coll, bounceTrigger b c = (!inPaddle b c && inPaddleNextTick b c)) ∧
    (∀ c : Coll, inPaddle b c = true → bounceTrigger b c = false) :=
  ⟨scan_eq_first_match b cs h, fun _ => rfl,
    fun c hc => by simp [bounceTrigger, hc]⟩

/-- Witness for C1: a concrete edge-triggering collider flips `XSpeed`. -/
theorem ball_update_first_match_bounce_witness :
    scanColliders (Ball.mk 100 100 5 0 10 10) [Coll.mk 112 95 10 20 false] =
      some (Ball.mk 100 100 (-5) 0 10 10) := by
  have h := (ball_update_first_match_bounce (Ball.mk 100 100 5 0 10 10)
    [Coll.mk 112 95 10 20 false] (by simp)).1
  rw [h]
  norm_num [List.find?, bounceTrigger, inPaddle, inPaddleNextTick, inXArea,
    inYArea, nextTick, flipX]

/-- The collider scan only ever multiplies `XSpeed` by `-1` and never
touches `YSpeed` (or any other field of a successful result). -/
theorem scan_speeds (b : Ball) : ∀ (cs : List Coll) (b1 : Ball),
    scanColliders b cs = some b1 →
    (b1 = b ∨ b1 = flipX b) := by
  intro cs
  induction cs with
  | nil =>
    intro b1 h
    simp only [scanColliders, Option.some.injEq] at h
    exact Or.inl h.symm
  | cons c rest ih =>
    intro b1 h
    simp only [scanColliders] at h
    split_ifs at h with h1 h2
    · rw [Option.some.injEq] at h
      exact Or.inr h.symm
    · exact ih b1 h

/-- `edgeBounce` preserves the absolute value of both velocity
components. -/
theorem edgeBounce_abs (b : Ball) :
    |(edgeBounce b).xspeed| = |b.xspeed| ∧
      |(edgeBounce b).yspeed| = |b.yspeed| := by
  by_cases h1 : b.x ≤ 0 ∨ b.x + b.w ≥ screenWidth <;>
    by_cases h2 : b.y ≤ 0 ∨ b.y + b.h ≥ screenHeight <;>
    simp [edgeBounce, h1, h2, abs_neg]

/-- C5: whenever `Ball.Update` returns (does not panic), the absolute
values of both velocity components are conserved: collisions and edge
handling only reverse signs. -/
theorem ball_update_conserves_speed (b b' : Ball) (cs : List Coll)
    (h : Ball.Update b cs = some b') :
    |b'.xspeed| = |b.xspeed| ∧ |b'.yspeed| = |b.yspeed| := by
  unfold Ball.Update at h
  rw [Option.map_eq_some'] at h
  obtain ⟨b1, hb1, rfl⟩ := h
  have hmid : |b1.xspeed| = |b.xspeed| ∧ |b1.yspeed| = |b.yspeed| := by
    rcases scan_speeds b cs b1 hb1 with h1 | h1 <;>
      simp [h1, flipX, abs_mul]
  have he := edgeBounce_abs b1
  have hn : (nextTick (edgeBounce b1)).xspeed = (edgeBounce b1).xspeed ∧
      (nextTick (edgeBounce b1)).yspeed = (edgeBounce b1).yspeed := ⟨rfl, rfl⟩
  rw [hn.1, hn.2, he.1, he.2]
  exact hmid

/-- Witness for C5 at a concrete bounce: speed magnitudes 5 and 3 are
conserved. -/
theorem ball_update_conserves_speed_witness :
    |(Ball.mk 95 103 (-5) 3 10 10).xspeed| =
        |(Ball.mk 100 100 5 3 10 10).xspeed| ∧
      |(Ball.mk 95 103 (-5) 3 10 10).yspeed| =
        |(Ball.mk 100 100 5 3 10 10).yspeed| :=
  ball_update_conserves_speed (Ball.mk 100 100 5 3 10 10)
    (Ball.mk 95 103 (-5) 3 10 10) [Coll.mk 112 95 10 20 false]
    (by norm_num [Ball.Update, scanColliders, bounceTrigger, inPaddle,
      inPaddleNextTick, inXArea, inYArea, nextTick, flipX, edgeBounce,
      screenWidth, screenHeight])

/-- The collider scan panics exactly when the first collider that stops
the scan (the ball itself, or an edge-triggering collider) is the ball
itself. -/
theorem scan_none_iff (b : Ball) (cs : List Coll) :
    scanColliders b cs = none ↔
      ∃ c, cs.find? (fun c => c.isSelf || bounceTrigger b c) = some c ∧
        c.isSelf = true := by
  induction cs with
  | nil => simp [scanColliders]
  | cons c rest ih =>
    by_cases h1 : c.isSelf = true
    · rw [List.find?_cons_of_pos _ (by simp [h1])]
      simp [scanColliders, h1]
    · have h1' : c.isSelf = false := by simpa using h1
      by_cases h2 : bounceTrigger b c = true
      · rw [List.find?_cons_of_pos _ (by simp [h2])]
        simp [scanColliders, h1', h2]
      · have h2' : bounceTrigger b c = false := by simpa using h2
        rw [List.find?_cons_of_neg _ (by simp [h1', h2'])]
        simp [scanColliders, h1', h2', ih]

/-- Counterexample to C2: with the collider list
`[edge-triggering paddle, the ball itself]`, the bounce `break` happens
before the self entry is examined, so `Ball.Update` returns normally
(no panic) even though the ball itself is in the list. -/
theorem ball_self_no_panic_counterexample :
    (Coll.mk 100 100 10 10 true).isSelf = true ∧
      (Ball.Update (Ball.mk 100 100 5 0 10 10)
        [Coll.mk 112 95 10 20 false, Coll.mk 100 100 10 10 true]).isSome
        = true := by
  refine ⟨rfl, ?_⟩
  norm_num [Ball.Update, scanColliders, bounceTrigger, inPaddle,
    inPaddleNextTick, inXArea, inYArea, nextTick, flipX]

/-- C2 (amended): `Ball.Update` panics if and only if the scan reaches
the ball itself in the collider list: the first entry that either is
the ball itself or triggers a bounce must be the ball itself.  In
particular a self entry that comes after a bounce-triggering collider
does not panic. -/
theorem ball_update_panic_iff (b : Ball) (cs : List Coll) :
    Ball.Update b cs = none ↔
      ∃ c, cs.find? (fun c => c.isSelf || bounceTrigger b c) = some c ∧
        c.isSelf = true := by
  unfold Ball.Update
  rw [Option.map_eq_none']
  exact scan_none_iff b cs

/-- Witness for C2 (amended): a self entry in first position does
panic. -/
theorem ball_update_panic_iff_witness :
    Ball.Update (Ball.mk 100 100 5 0 10 10) [Coll.mk 100 100 10 10 true]
      = none :=
  (ball_update_panic_iff (Ball.mk 100 100 5 0 10 10)
    [Coll.mk 100 100 10 10 true]).mpr
    ⟨Coll.mk 100 100 10 10 true, by simp [List.find?], rfl⟩

/-- Counterexample to C7: a ball at `X = 0` moving left that also
bounces off a collider this tick has its `XSpeed` flipped twice (once
by the collider scan, once by the edge handling), so after
`Ball.Update` the horizontal velocity is still negative, not positive. -/
theorem ball_edge_flip_counterexample :
    (Ball.mk 0 50 (-5) 0 10 10).x = 0 ∧
      (Ball.mk 0 50 (-5) 0 10 10).xspeed < 0 ∧
      (Ball.Update (Ball.mk 0 50 (-5) 0 10 10)
          [Coll.mk (-20) 40 16 30 false]).map Ball.xspeed = some (-5) := by
  refine ⟨rfl, by norm_num, ?_⟩
  norm_num [Ball.Update, scanColliders, bounceTrigger, inPaddle,
    inPaddleNextTick, inXArea, inYArea, nextTick, flipX, edgeBounce,
    screenWidth, screenHeight]

/-- C7 (amended): the edge-handling step of `Ball.Update` reverses
`XSpeed` exactly when the ball's box touches or crosses the left or
right screen edge and `YSpeed` exactly when it touches or crosses the
top or bottom edge, applied to the post-scan velocity; consequently a
ball at `X = 0` moving left ends the call with positive `XSpeed`
provided the collider scan leaves it unchanged (for example with no
colliders). -/
theorem ball_edge_reversal (b : Ball) :
    (∀ cs : List Coll, scanColliders b cs = some b → b.x = 0 →
      b.xspeed < 0 →
      (Ball.Update b cs).map Ball.xspeed = some (-b.xspeed) ∧
        0 < -b.xspeed) ∧
    ((edgeBounce b).xspeed =
      if b.x ≤ 0 ∨ b.x + b.w ≥ screenWidth then -b.xspeed else b.xspeed) ∧
    ((edgeBounce b).yspeed =
      if b.y ≤ 0 ∨ b.y + b.h ≥ screenHeight then -b.yspeed else b.yspeed) := by
  have hx : (edgeBounce b).xspeed =
      if b.x ≤ 0 ∨ b.x + b.w ≥ screenWidth then -b.xspeed else b.xspeed := by
    by_cases h1 : b.x ≤ 0 ∨ b.x + b.w ≥ screenWidth <;>
      by_cases h2 : b.y ≤ 0 ∨ b.y + b.h ≥ screenHeight <;>
      simp [edgeBounce, h1, h2]
  have hy : (edgeBounce b).yspeed =
      if b.y ≤ 0 ∨ b.y + b.h ≥ screenHeight then -b.yspeed else b.yspeed := by
    by_cases h1 : b.x ≤ 0 ∨ b.x + b.w ≥ screenWidth <;>
      by_cases h2 : b.y ≤ 0 ∨ b.y + b.h ≥ screenHeight <;>
      simp [edgeBounce, h1, h2]
  refine ⟨?_, hx, hy⟩
  intro cs hscan hx0 hneg
  unfold Ball.Update
  rw [hscan, Option.map_some']
  refine ⟨?_, by linarith⟩
  show some (edgeBounce b).xspeed = some (-b.xspeed)
  rw [hx, if_pos (Or.inl (le_of_eq hx0))]

/-- Witness for C7 (amended): the concrete ball at the left edge with
no colliders ends with `XSpeed = 5 > 0`. -/
theorem ball_edge_reversal_witness :
    (Ball.Update (Ball.mk 0 50 (-5) 0 10 10) []).map Ball.xspeed =
        some 5 ∧ (0:ℚ) < 5 := by
  have h := (ball_edge_reversal (Ball.mk 0 50 (-5) 0 10 10)).1 []
    (by simp [scanColliders]) rfl (by norm_num)
  simpa using h

/-- Counterexample to C8: boxes whose X extents and Y extents both
intersect (AABB overlap as the spec claims), but `inPaddle` is false
because the code's Y test demands the ball's Y extent be contained in
the collider's, not merely intersect it. -/
theorem inPaddle_not_aabb_counterexample :
    specAabbOverlap (Ball.mk 100 0 0 0 10 10) (Coll.mk 100 5 10 50 false) ∧
      inPaddle (Ball.mk 100 0 0 0 10 10) (Coll.mk 100 5 10 50 false)
        = false := by
  constructor
  · constructor
    · exact ⟨100, by norm_num [Set.mem_inter_iff, Set.mem_Icc]⟩
    · exact ⟨5, by norm_num [Set.mem_inter_iff, Set.mem_Icc]⟩
  · norm_num [inPaddle, inXArea, inYArea]

/-- `inPaddle` in terms of intervals: X extents intersect and the
ball's Y extent is contained in the collider's Y extent. -/
theorem inPaddle_iff_aux (b : Ball) (c : Coll)
    (hbw : 0 ≤ b.w) (hbh : 0 ≤ b.h) (hcw : 0 ≤ c.w) :
    inPaddle b c = true ↔
      (Set.Icc b.x (b.x + b.w) ∩ Set.Icc c.x (c.x + c.w)).Nonempty ∧
        Set.Icc b.y (b.y + b.h) ⊆ Set.Icc c.y (c.y + c.h) := by
  rw [Set.Icc_inter_Icc, Set.nonempty_Icc,
    Set.Icc_subset_Icc_iff (by linarith : b.y ≤ b.y + b.h)]
  simp only [inPaddle, inXArea, inYArea, Bool.and_eq_true, decide_eq_true_eq,
    ge_iff_le, max_le_iff, le_min_iff]
  constructor
  · rintro ⟨⟨h1, h2⟩, h3, h4⟩
    refine ⟨⟨⟨?_, ?_⟩, ?_, ?_⟩, ?_, ?_⟩ <;> linarith
  · rintro ⟨⟨⟨h1, h2⟩, h3, h4⟩, h5, h6⟩
    refine ⟨⟨?_, ?_⟩, ?_, ?_⟩ <;> linarith

/-- C8 (amended): for boxes of nonnegative size, `inPaddle` holds
exactly when the X extents intersect and the ball's Y extent is
contained in the collider's Y extent, and `inPaddleNextTick` is the
same test at the position offset by `(XSpeed, YSpeed)`. -/
theorem inPaddle_overlap_semantics (b : Ball) (c : Coll)
    (hbw : 0 ≤ b.w) (hbh : 0 ≤ b.h) (hcw : 0 ≤ c.w) :
    (inPaddle b c = true ↔
      (Set.Icc b.x (b.x + b.w) ∩ Set.Icc c.x (c.x + c.w)).Nonempty ∧
        Set.Icc b.y (b.y + b.h) ⊆ Set.Icc c.y (c.y + c.h)) ∧
    (inPaddleNextTick b c = true ↔
      (Set.Icc (b.x + b.xspeed) (b.x + b.xspeed + b.w) ∩
          Set.Icc c.x (c.x + c.w)).Nonempty ∧
        Set.Icc (b.y + b.yspeed) (b.y + b.yspeed + b.h) ⊆
          Set.Icc c.y (c.y + c.h)) := by
  refine ⟨inPaddle_iff_aux b c hbw hbh hcw, ?_⟩
  have h := inPaddle_iff_aux (nextTick b) c hbw hbh hcw
  simpa [inPaddleNextTick, nextTick] using h

/-- Witness for C8 (amended) at a concrete overlapping pair. -/
theorem inPaddle_overlap_semantics_witness :
    (Set.Icc (100:ℚ) (100 + 10) ∩ Set.Icc (100:ℚ) (100 + 10)).Nonempty ∧
      Set.Icc (10:ℚ) (10 + 10) ⊆ Set.Icc (5:ℚ) (5 + 50) :=
  ((inPaddle_overlap_semantics (Ball.mk 100 10 0 0 10 10)
      (Coll.mk 100 5 10 50 false) (by norm_num) (by norm_num)
      (by norm_num)).1).mp (by norm_num [inPaddle, inXArea, inYArea])
